import Mathlib

/-!
Shallow embedding of the Jingle content-negotiation core of Gajim
(`gajim/common/jingle_content.py`) and of the file-transfer progress,
throughput-estimation and hash-recovery logic (`gajim/gtk/filetransfer.py`).

Python floats are modelled exactly over `ℚ`; machine arithmetic in the
modelled fragment never overflows.  Division by zero in Lean's `ℚ` yields 0;
every theorem exercising a division carries the hypotheses under which the
source cannot divide by zero.
-/

namespace Gajim

/-- The bound methods of `JingleContent` that can appear as entries of the
`callbacks` dict: `__on_transport_info`, `__on_content_accept`,
`__on_transport_replace`, `__fill_jingle_stanza`. -/
inductive Handler
  | transportInfo
  | contentAccept
  | transportReplace
  | fillJingleStanza
deriving DecidableEq, Repr

/-- The `callbacks` dict built in `JingleContent.__init__`, in declaration
order.  Keys are the action names, values the ordered handler lists. -/
def callbacksInit : List (String × List Handler) :=
  [ ("content-accept", [Handler.transportInfo, Handler.contentAccept]),
    ("content-add", [Handler.transportInfo]),
    ("content-modify", []),
    ("content-reject", []),
    ("content-remove", []),
    ("description-info", []),
    ("security-info", []),
    ("session-accept", [Handler.transportInfo, Handler.contentAccept]),
    ("session-info", []),
    ("session-initiate", [Handler.transportInfo]),
    ("session-terminate", []),
    ("transport-info", [Handler.transportInfo]),
    ("transport-replace", [Handler.transportReplace]),
    ("transport-accept", [Handler.transportReplace]),
    ("transport-reject", []),
    ("iq-result", []),
    ("iq-error", []),
    ("content-accept-sent", [Handler.fillJingleStanza, Handler.contentAccept]),
    ("content-add-sent", [Handler.fillJingleStanza]),
    ("session-initiate-sent", [Handler.fillJingleStanza]),
    ("session-accept-sent", [Handler.fillJingleStanza, Handler.contentAccept]),
    ("session-terminate-sent", []) ]

/-- Python truthiness of an optional string: `None` and the empty string are
falsy, any other string is truthy. -/
def strTruthy : Option String → Bool
  | none => false
  | some s => s ≠ ""

/-- The fields of `FileProp` that `JingleContent._fill_content` reads.
`gajim.common.file_props` is not among the analysed sources; only the fields
the analysed code reads are carried here.  `type_` is the direction tag of
the source: the string r marks a receive-direction content, anything else is
send-direction. -/
structure FileProp where
  name : Option String
  file_name : Option String
  date : Option String
  size : Nat
  hash_ : Option String
  algo : Option String
  desc : Option String
  type_ : String
deriving DecidableEq, Repr

/-- The kinds of children appended to the outbound `content` wrapper node by
`_fill_content` and `__fill_jingle_stanza`. -/
inductive ContentChild
  | security
  | description
  | transport
deriving DecidableEq, Repr

/-- The kinds of children appended to the `file` tag inside the description
element by `_fill_content`. -/
inductive FileChild
  | nameTag
  | dateTag
  | sizeTag
  | hashTag
  | descTag
deriving DecidableEq, Repr

/-- Result of `_fill_content`: the children of the `file` tag in order, the
children appended to the `content` node in order, and whether
`_compute_hash` was invoked. -/
structure FillResult where
  fileChildren : List FileChild
  contentChildren : List ContentChild
  hashComputed : Bool
deriving DecidableEq, Repr

/-- Modelled from the spec: `_compute_hash` (defined in the file-transfer
content subclass, which is not among the analysed sources) synchronously
computes the digest of the file and returns a hash element, which the spec
says is then attached; we model the returned element as always present. -/
def computeHashResult : Option FileChild :=
  some FileChild.hashTag

/-- Embedding of `JingleContent._fill_content`.  `use_security` is the
truthiness-tested `self.use_security`; `certLoads` models whether
`load_cert_file` (from `jingle_xtls`, not among the analysed sources)
returns a certificate.  The source appends the security element to the
content node inside the certificate branch and appends the description
element afterwards, unconditionally. -/
def fill_content (fp : FileProp) (use_security : Option Bool) (certLoads : Bool) :
    FillResult :=
  let base : List FileChild :=
    (if strTruthy fp.name then [FileChild.nameTag] else [])
    ++ (if strTruthy fp.date then [FileChild.dateTag] else [])
    ++ (if fp.size ≠ 0 then [FileChild.sizeTag] else [])
  let hashPart : List FileChild × Bool :=
    if fp.type_ = "r" then
      ((if strTruthy fp.hash_ then [FileChild.hashTag] else []), false)
    else
      if fp.size < 10000000 ∧ strTruthy fp.hash_ = false then
        ((match computeHashResult with
          | some c => [c]
          | none => []), true)
      else ([], false)
  let fileChildren := base ++ hashPart.1 ++ [FileChild.descTag]
  let contentChildren :=
    (if use_security = some true ∧ certLoads then [ContentChild.security] else [])
    ++ [ContentChild.description]
  ⟨fileChildren, contentChildren, hashPart.2⟩

/-- The children that `__fill_jingle_stanza` leaves on the outbound content
node: first whatever `_fill_content` appended, then the transport payload
from `self.transport.make_transport()`. -/
def fill_jingle_stanza_children (fp : FileProp) (use_security : Option Bool)
    (certLoads : Bool) : List ContentChild :=
  (fill_content fp use_security certLoads).contentChildren ++ [ContentChild.transport]

/-- State of one `JingleContent` as far as the negotiation flags are
concerned, together with the observable calls the content makes to
`self.session.content_negotiated(self.media)` (the `notifications` list, in
call order).  `callbacks` is `none` once `destroy` has run, mirroring
`self.callbacks = None`. -/
structure JC where
  creator : Option String
  name : Option String
  media : Option String
  accepted : Bool
  sent : Bool
  negotiated : Bool
  callbacks : Option (List (String × List Handler))
  notifications : List (Option String)
deriving DecidableEq, Repr

/-- A freshly constructed content: `accepted`, `sent` and `negotiated` start
false and the callback table is the one from `__init__`. -/
def initJC : JC :=
  { creator := none, name := none, media := none,
    accepted := false, sent := false, negotiated := false,
    callbacks := some callbacksInit, notifications := [] }

/-- `JingleContent.is_ready`. -/
def is_ready (jc : JC) : Bool :=
  jc.accepted && !jc.sent

/-- `JingleContent.on_negotiated`: when `self.accepted` is true, set
`negotiated` and call `session.content_negotiated(self.media)`. -/
def on_negotiated (jc : JC) : JC :=
  if jc.accepted then
    { jc with negotiated := true, notifications := jc.notifications ++ [jc.media] }
  else jc

/-- Effect of one callback on the tracked state.  `__on_transport_info` and
`__on_transport_replace` only touch the transport and the stanza being
built, not the flags tracked here; `__on_content_accept` calls
`on_negotiated`; `__fill_jingle_stanza` sets `sent` (its stanza effects are
modelled by `fill_jingle_stanza_children`). -/
def runHandler : Handler → JC → JC
  | Handler.transportInfo, jc => jc
  | Handler.contentAccept, jc => on_negotiated jc
  | Handler.transportReplace, jc => jc
  | Handler.fillJingleStanza, jc => { jc with sent := true }

/-- Run a handler list in declaration order, as the loop in `on_stanza`
does. -/
def runHandlers (hs : List Handler) (jc : JC) : JC :=
  hs.foldl (fun s h => runHandler h s) jc

/-- `JingleContent.on_stanza`.  With a live callback table, an action that is
not a key is a no-op and a matching action runs all its handlers in order.
After `destroy`, `self.callbacks` is `None` and the membership test
`action in self.callbacks` raises `TypeError`. -/
def on_stanza (jc : JC) (action : String) : Except String JC :=
  match jc.callbacks with
  | none => Except.error "TypeError: argument of type NoneType is not iterable"
  | some tbl =>
    match tbl.lookup action with
    | none => Except.ok jc
    | some hs => Except.ok (runHandlers hs jc)

/-- `JingleContent.destroy`: set the callback table to `None` and delete the
`(creator, name)` key from the contents dict of the owning session (the
session map is tracked by its key list). -/
def destroy (sessionContents : List (Option String × Option String)) (jc : JC) :
    List (Option String × Option String) × JC :=
  (sessionContents.filter (fun k => k ≠ (jc.creator, jc.name)),
   { jc with callbacks := none })

/-- External events driving one content: a dispatch through `on_stanza`
(a failing dispatch leaves the state unchanged), or the owning session
marking the content accepted.  The accept event is modelled from the spec:
the session code that flips `accepted` (`jingle_session.py`) is not among
the analysed sources, and no analysed operation ever clears `accepted`. -/
inductive Event
  | act (a : String)
  | accept
deriving DecidableEq, Repr

/-- One event step. -/
def step (jc : JC) : Event → JC
  | Event.act a =>
    match on_stanza jc a with
    | Except.ok jc2 => jc2
    | Except.error _ => jc
  | Event.accept => { jc with accepted := true }

/-- Run a sequence of events. -/
def run (jc : JC) (evs : List Event) : JC :=
  evs.foldl step jc

/-- Whether dispatching this event on a live content executes the
`__fill_jingle_stanza` handler, read off the callback table. -/
def RunsFill : Event → Prop
  | Event.act a => ∃ hs, callbacksInit.lookup a = some hs ∧ Handler.fillJingleStanza ∈ hs
  | Event.accept => False

/-- Python 3 `round` to an integer: round half to even, modelled exactly on
`ℚ` (the concrete values the analysed code rounds are exactly representable
as floats). -/
def pyRound (q : ℚ) : ℤ :=
  if q - ⌊q⌋ < 1/2 then ⌊q⌋
  else if q - ⌊q⌋ > 1/2 then ⌊q⌋ + 1
  else if ⌊q⌋ % 2 = 0 then ⌊q⌋ else ⌊q⌋ + 1

/-- The fields of a transfer record (`FileProp`) that the progress, ETA and
pause/restore code of `gtk/filetransfer.py` reads and writes.
`transfered_size` is the retained sample list of `(last_time, transferred)`
pairs; `type_` is the direction tag (the string r for receive). -/
structure TransferProp where
  size : ℚ
  transfered_size : List (ℚ × ℚ)
  elapsed_time : ℚ
  last_time : ℚ
  offset : ℚ
  paused : Bool
  stalled : Bool
  connected : Bool
  type_ : String
deriving DecidableEq, Repr

/-- Embedding of `FileTransfersWindow._get_eta_and_speed`.  An empty sample
list returns `(0, 0)`; one sample divides the transferred amount by
`elapsed_time`; two or more samples divide the byte span by the time span of
the whole retained window, returning `(0, 0)` when the time span is zero;
finally a rounded speed of zero returns `(0, 0)` and otherwise the ETA is
the remaining size divided by the speed. -/
def get_eta_and_speed (full_size transfered_size : ℚ) (fp : TransferProp) :
    ℚ × ℚ :=
  if fp.transfered_size = [] then (0, 0)
  else
    let speedBranch : Option ℚ :=
      if fp.transfered_size.length = 1 then
        some ((pyRound (transfered_size / fp.elapsed_time) : ℤ) : ℚ)
      else
        let first := fp.transfered_size.headD (0, 0)
        let last := fp.transfered_size.getLastD (0, 0)
        let transfered := last.2 - first.2
        let tim := last.1 - first.1
        if tim = 0 then none
        else some ((pyRound (transfered / tim) : ℤ) : ℚ)
    match speedBranch with
    | none => (0, 0)
    | some speed =>
      if speed = 0 then (0, 0)
      else ((full_size - transfered_size) / speed, speed)

/-- The sample-maintenance and estimation portion of
`FileTransfersWindow.set_progress` (the remaining-time block): subtract the
resume offset from both sizes when an offset is set, append a
`(last_time, transferred)` sample when `elapsed_time > 0`, evict the oldest
sample once more than 6 are retained, then compute the estimate.  Returns
the `(eta, speed)` pair and the updated record. -/
def set_progress_estimate (fp : TransferProp) (transferedArg : ℚ) :
    (ℚ × ℚ) × TransferProp :=
  let transfered_size := if fp.offset ≠ 0 then transferedArg - fp.offset else transferedArg
  let full_size := if fp.offset ≠ 0 then fp.size - fp.offset else fp.size
  let samples1 :=
    if fp.elapsed_time > 0 then fp.transfered_size ++ [(fp.last_time, transfered_size)]
    else fp.transfered_size
  let samples2 := if samples1.length > 6 then samples1.tail else samples1
  let fp2 := { fp with transfered_size := samples2 }
  (get_eta_and_speed full_size transfered_size fp2, fp2)

/-- The status-image guess of `set_progress`: direction gives download or
upload, a paused record shows pause, else a stalled record shows waiting,
and a disconnected record always shows stop. -/
inductive TransferStatus
  | download
  | upload
  | pause
  | waiting
  | stop
deriving DecidableEq, Repr

/-- Embedding of the status-guess block of `set_progress` (the assignments
to `status` before `self.model.set(iter_, 0, self.icons[status])`). -/
def set_progress_status (fp : TransferProp) : TransferStatus :=
  let st0 := if fp.type_ = "r" then TransferStatus.download else TransferStatus.upload
  let st1 :=
    if fp.paused = true then TransferStatus.pause
    else if fp.stalled = true then TransferStatus.waiting
    else st0
  if fp.connected = false then TransferStatus.stop else st1

/-- The pause branch of `on_pause_restore_button_clicked` (taken when the
selected transfer is active): set `paused` and reset the retained sample
list to `[]` so that speed is computed only from post-resume data. -/
def pause_branch (fp : TransferProp) : TransferProp :=
  { fp with paused := true, transfered_size := [] }

/-- The restore branch of `on_pause_restore_button_clicked` (taken when the
selected transfer is paused): stamp `last_time` with the current time and
clear `paused`. -/
def restore_branch (fp : TransferProp) (now : ℚ) : TransferProp :=
  { fp with last_time := now, paused := false }

/-- The fields of a transfer record involved in hash-mismatch recovery in
`show_hash_error`. -/
structure FTRecord where
  account : String
  sid : String
  file_name : Option String
  name : Option String
  desc : Option String
  size : Nat
  date : Option String
  hash_ : Option String
  type_ : String
  offset : Nat
  transport_sid : Option String
deriving DecidableEq, Repr

/-- Modelled from the spec: `FilesProp.getNewFileProp(account, sid)`
(`gajim.common.file_props` is not among the analysed sources) creates and
registers exactly one brand-new blank transfer record for the given account
and session id, with no metadata and a zero resume offset. -/
def getNewFileProp (account sid : String) : FTRecord :=
  { account := account, sid := sid, file_name := none, name := none,
    desc := none, size := 0, date := none, hash_ := none, type_ := "",
    offset := 0, transport_sid := none }

/-- The observable outcome of the `on_yes` recovery handler: which local
file was removed, the records created by the flow, and whether the full
file was re-requested from the sender
(`start_file_transfer(fjid, new_file_props, True)`; the Jingle module is not
among the analysed sources, so the request itself is modelled from the
spec as a flag). -/
structure RecoveryOutcome where
  removedFile : Option String
  created : List FTRecord
  requested : Bool
deriving DecidableEq, Repr

/-- Embedding of the `on_yes` handler inside
`FileTransfersWindow.show_hash_error`: delete the old local file, draw a
fresh session id (`freshSid`, from `get_random_string_16`), create one new
record copying the metadata of the original, force its direction to
receive, request the file, and record the transport sid returned by the
request. -/
def show_hash_error_on_yes (old : FTRecord) (account freshSid tsid : String) :
    RecoveryOutcome :=
  let n0 := getNewFileProp account freshSid
  let n1 := { n0 with
    file_name := old.file_name,
    name := old.name,
    desc := old.desc,
    size := old.size,
    date := old.date,
    hash_ := old.hash_,
    type_ := "r",
    transport_sid := some tsid }
  { removedFile := old.file_name, created := [n1], requested := true }

/-! Helper lemmas about the dispatch machine. -/

theorem on_negotiated_sent (jc : JC) : (on_negotiated jc).sent = jc.sent := by
  unfold on_negotiated
  cases jc.accepted <;> simp

theorem on_negotiated_callbacks (jc : JC) :
    (on_negotiated jc).callbacks = jc.callbacks := by
  unfold on_negotiated
  cases jc.accepted <;> simp

theorem runHandler_callbacks (h : Handler) (jc : JC) :
    (runHandler h jc).callbacks = jc.callbacks := by
  cases h <;> simp [runHandler, on_negotiated_callbacks]

theorem runHandlers_callbacks (hs : List Handler) (jc : JC) :
    (runHandlers hs jc).callbacks = jc.callbacks := by
  induction hs generalizing jc with
  | nil => rfl
  | cons h t ih =>
    have hstep : runHandlers (h :: t) jc = runHandlers t (runHandler h jc) := rfl
    rw [hstep, ih, runHandler_callbacks]

theorem step_callbacks (jc : JC) (e : Event) :
    (step jc e).callbacks = jc.callbacks := by
  cases e with
  | accept => rfl
  | act a =>
    rcases hc : jc.callbacks with _ | tbl
    · simp [step, on_stanza, hc]
    · rcases hl : tbl.lookup a with _ | hs
      · simp [step, on_stanza, hc, hl]
      · simp [step, on_stanza, hc, hl, runHandlers_callbacks]

theorem runHandler_inv (h : Handler) (jc : JC)
    (hi : jc.negotiated = true → jc.accepted = true) :
    (runHandler h jc).negotiated = true → (runHandler h jc).accepted = true := by
  cases h with
  | transportInfo => exact hi
  | transportReplace => exact hi
  | fillJingleStanza => exact hi
  | contentAccept =>
    unfold runHandler on_negotiated
    cases hb : jc.accepted with
    | true => simp [hb]
    | false => simpa [hb] using hi

theorem runHandlers_inv (hs : List Handler) (jc : JC)
    (hi : jc.negotiated = true → jc.accepted = true) :
    (runHandlers hs jc).negotiated = true → (runHandlers hs jc).accepted = true := by
  induction hs generalizing jc with
  | nil => exact hi
  | cons h t ih =>
    have hstep : runHandlers (h :: t) jc = runHandlers t (runHandler h jc) := rfl
    rw [hstep]
    exact ih (runHandler h jc) (runHandler_inv h jc hi)

theorem step_inv (jc : JC) (e : Event)
    (hi : jc.negotiated = true → jc.accepted = true) :
    (step jc e).negotiated = true → (step jc e).accepted = true := by
  cases e with
  | accept => intro _; rfl
  | act a =>
    rcases hc : jc.callbacks with _ | tbl
    · simpa [step, on_stanza, hc] using hi
    · rcases hl : tbl.lookup a with _ | hs
      · simpa [step, on_stanza, hc, hl] using hi
      · simpa [step, on_stanza, hc, hl] using runHandlers_inv hs jc hi

theorem runHandlers_sent (hs : List Handler) (jc : JC) :
    (runHandlers hs jc).sent = true ↔
      (jc.sent = true ∨ Handler.fillJingleStanza ∈ hs) := by
  induction hs generalizing jc with
  | nil => simp [runHandlers]
  | cons h t ih =>
    have hstep : runHandlers (h :: t) jc = runHandlers t (runHandler h jc) := rfl
    rw [hstep, ih]
    cases h with
    | transportInfo => simp [runHandler]
    | transportReplace => simp [runHandler]
    | contentAccept => simp [runHandler, on_negotiated_sent]
    | fillJingleStanza => simp [runHandler]

theorem step_sent (jc : JC) (e : Event)
    (hcb : jc.callbacks = some callbacksInit) :
    (step jc e).sent = true ↔ (jc.sent = true ∨ RunsFill e) := by
  cases e with
  | accept => simp [step, RunsFill]
  | act a =>
    rcases hl : callbacksInit.lookup a with _ | hs
    · simp [step, on_stanza, hcb, hl, RunsFill]
    · simp [step, on_stanza, hcb, hl, RunsFill, runHandlers_sent]

/-- C8: for every content and every sequence of dispatched events, the
invariant that a negotiated content is accepted is preserved:
`on_negotiated` only sets `negotiated` when `accepted` already holds and no
tracked operation clears `accepted`, so `negotiated = true → accepted =
true` holds in every state reachable from a state satisfying it (in
particular from the freshly constructed content). -/
theorem negotiated_implies_accepted (jc : JC) (evs : List Event)
    (hi : jc.negotiated = true → jc.accepted = true) :
    (run jc evs).negotiated = true → (run jc evs).accepted = true := by
  induction evs generalizing jc with
  | nil => exact hi
  | cons e t ih =>
    have hstep : run jc (e :: t) = run (step jc e) t := rfl
    rw [hstep]
    exact ih (step jc e) (step_inv jc e hi)

/-- Witness for C8 at a concrete run: the session accepts the content, then
a session-accept stanza is dispatched; the resulting state is negotiated,
and the theorem yields that it is accepted. -/
theorem negotiated_implies_accepted_witness :
    (run initJC [Event.accept, Event.act "session-accept"]).accepted = true :=
  negotiated_implies_accepted initJC [Event.accept, Event.act "session-accept"]
    (by decide) (by decide)

/-- C9: `sent` becomes true exactly when a fill-stanza handler has executed:
running any event sequence on a live content yields `sent = true` iff it was
already true or some dispatched action has `__fill_jingle_stanza` among its
handlers in the callback table. -/
theorem sent_iff_fill_ran (evs : List Event) (jc : JC)
    (hcb : jc.callbacks = some callbacksInit) :
    (run jc evs).sent = true ↔ (jc.sent = true ∨ ∃ e ∈ evs, RunsFill e) := by
  induction evs generalizing jc with
  | nil => simp [run]
  | cons e t ih =>
    have hstep : run jc (e :: t) = run (step jc e) t := rfl
    have hcb2 : (step jc e).callbacks = some callbacksInit := by
      rw [step_callbacks, hcb]
    rw [hstep, ih (step jc e) hcb2, step_sent jc e hcb]
    constructor
    · rintro ((hs | hr) | he)
      · exact Or.inl hs
      · exact Or.inr ⟨e, List.mem_cons_self e t, hr⟩
      · rcases he with ⟨x, hx, hrx⟩
        exact Or.inr ⟨x, List.mem_cons_of_mem e hx, hrx⟩
    · rintro (hs | ⟨x, hx, hrx⟩)
      · exact Or.inl (Or.inl hs)
      · rcases List.mem_cons.mp hx with rfl | hx2
        · exact Or.inl (Or.inr hrx)
        · exact Or.inr ⟨x, hx2, hrx⟩

/-- Witness for C9: dispatching session-initiate-sent on a fresh content
sets `sent`. -/
theorem sent_iff_fill_ran_witness :
    (run initJC [Event.act "session-initiate-sent"]).sent = true :=
  (sent_iff_fill_ran [Event.act "session-initiate-sent"] initJC rfl).mpr
    (Or.inr ⟨Event.act "session-initiate-sent", by simp,
      ⟨[Handler.fillJingleStanza], rfl, by simp⟩⟩)

/-- C10: after `destroy`, the callbacks table is `None`, the
`(creator, name)` key is gone from the session contents map, and every
subsequent `on_stanza` call, whatever the action, raises (the membership
test `action in None` fails with `TypeError`) instead of silently
succeeding. -/
theorem destroyed_dispatch_raises
    (sess : List (Option String × Option String)) (jc : JC) (action : String) :
    (destroy sess jc).2.callbacks = none ∧
    (jc.creator, jc.name) ∉ (destroy sess jc).1 ∧
    ∃ msg, on_stanza (destroy sess jc).2 action = Except.error msg := by
  refine ⟨rfl, ?_, ⟨_, rfl⟩⟩
  simp [destroy, List.mem_filter]

/-- A content that is already negotiated (and accepted), used to exhibit the
renotification behaviour of the accept handler. -/
def jcNeg : JC :=
  { creator := some "initiator", name := some "a", media := some "file",
    accepted := true, sent := false, negotiated := true,
    callbacks := some callbacksInit, notifications := [some "file"] }

/-- Counterexample to C2 as stated: delivering content-accept to an
already-negotiated content notifies the session again (the notification list
grows from one entry to two), because `on_negotiated` tests only `accepted`
and never tests `negotiated`. -/
theorem accept_renotifies_cex :
    jcNeg.negotiated = true ∧
    on_stanza jcNeg "content-accept" =
      Except.ok { jcNeg with notifications := [some "file", some "file"] } ∧
    ({ jcNeg with notifications := [some "file", some "file"] } : JC).notifications.length =
      jcNeg.notifications.length + 1 :=
  ⟨rfl, rfl, rfl⟩

/-- C2 amended: the accept handler sets `negotiated` and notifies the
session exactly when `accepted` is true, regardless of whether `negotiated`
is already true; when `accepted` is false the dispatch leaves the content
unchanged.  In particular an already-negotiated accepted content is
notified again on redelivery. -/
theorem accept_handler_effect (jc : JC) (a : String)
    (hcb : jc.callbacks = some callbacksInit)
    (ha : a = "content-accept" ∨ a = "session-accept") :
    ∃ jc2, on_stanza jc a = Except.ok jc2 ∧
      (jc.accepted = true →
        jc2.negotiated = true ∧
        jc2.notifications = jc.notifications ++ [jc.media]) ∧
      (jc.accepted = false → jc2 = jc) := by
  have hrun : ∀ b : String, b = "content-accept" ∨ b = "session-accept" →
      on_stanza jc b = Except.ok (on_negotiated jc) := by
    intro b hb
    unfold on_stanza
    rw [hcb]
    rcases hb with rfl | rfl <;> rfl
  refine ⟨on_negotiated jc, hrun a ha, ?_, ?_⟩
  · intro hacc
    unfold on_negotiated
    rw [hacc]
    simp
  · intro hacc
    unfold on_negotiated
    rw [hacc]
    simp

/-- Witness for C2 amended, at a not-yet-negotiated accepted content. -/
def jcAcc : JC :=
  { jcNeg with negotiated := false, notifications := [] }

/-- Witness for C2 amended: applying the theorem at `jcAcc` and the
session-accept action. -/
theorem accept_handler_effect_witness :
    ∃ jc2, on_stanza jcAcc "session-accept" = Except.ok jc2 ∧
      (jcAcc.accepted = true →
        jc2.negotiated = true ∧
        jc2.notifications = jcAcc.notifications ++ [jcAcc.media]) ∧
      (jcAcc.accepted = false → jc2 = jcAcc) :=
  accept_handler_effect jcAcc "session-accept" rfl (Or.inr rfl)

/-- A concrete send-direction file with every optional description field
set and a pre-set hash. -/
def fpC1 : FileProp :=
  { name := some "f.txt", file_name := some "/home/u/f.txt", date := some "d",
    size := 100, hash_ := some "abcd", algo := some "sha-1",
    desc := some "text", type_ := "s" }

/-- Counterexample to C1 as stated: with `use_security` true (and the
certificate loading), the filled content node carries the security element
at index 0 and the description element at index 1, so the description does
NOT come before the security element. -/
theorem fill_security_first_cex :
    fill_jingle_stanza_children fpC1 (some true) true =
      [ContentChild.security, ContentChild.description, ContentChild.transport] ∧
    (fill_jingle_stanza_children fpC1 (some true) true).indexOf
      ContentChild.security = 0 ∧
    (fill_jingle_stanza_children fpC1 (some true) true).indexOf
      ContentChild.description = 1 :=
  ⟨by decide, by decide, by decide⟩

/-- C1 amended: for every filled content the security element (present
exactly when `use_security` is true and the certificate loads) is appended
BEFORE the description element, and the transport payload is appended after
both, as the last child. -/
theorem fill_children_order (fp : FileProp) (us : Option Bool) (cl : Bool) :
    (us = some true ∧ cl = true →
      fill_jingle_stanza_children fp us cl =
        [ContentChild.security, ContentChild.description, ContentChild.transport]) ∧
    (¬(us = some true ∧ cl = true) →
      fill_jingle_stanza_children fp us cl =
        [ContentChild.description, ContentChild.transport]) ∧
    (fill_jingle_stanza_children fp us cl).getLast? = some ContentChild.transport := by
  unfold fill_jingle_stanza_children fill_content
  by_cases h : us = some true ∧ cl = true
  · simp [h]
  · simp [h]

/-- Witness for C1 amended, with security disabled. -/
theorem fill_children_order_witness :
    fill_jingle_stanza_children fpC1 none false =
      [ContentChild.description, ContentChild.transport] :=
  (fill_children_order fpC1 none false).2.1 (by simp)

/-- C5: the derived transfer status obeys the priority: disconnected wins
over everything and yields stop; otherwise paused yields pause; otherwise
stalled yields waiting; otherwise the direction picks download (receive) or
upload (send). -/
theorem status_priority (fp : TransferProp) :
    (fp.connected = false → set_progress_status fp = TransferStatus.stop) ∧
    (fp.connected = true → fp.paused = true →
      set_progress_status fp = TransferStatus.pause) ∧
    (fp.connected = true → fp.paused = false → fp.stalled = true →
      set_progress_status fp = TransferStatus.waiting) ∧
    (fp.connected = true → fp.paused = false → fp.stalled = false →
      fp.type_ = "r" → set_progress_status fp = TransferStatus.download) ∧
    (fp.connected = true → fp.paused = false → fp.stalled = false →
      fp.type_ ≠ "r" → set_progress_status fp = TransferStatus.upload) := by
  unfold set_progress_status
  refine ⟨?_, ?_, ?_, ?_, ?_⟩ <;> intros <;> simp_all

/-- Disconnected and paused at once. -/
def fpStopPause : TransferProp :=
  { size := 1000, transfered_size := [], elapsed_time := 1, last_time := 1,
    offset := 0, paused := true, stalled := false, connected := false,
    type_ := "r" }

/-- Witness for C5: a transfer with connected false and paused true reports
stop, never pause. -/
theorem status_priority_witness :
    set_progress_status fpStopPause = TransferStatus.stop :=
  (status_priority fpStopPause).1 rfl

/-- C6: for a send-direction content with no pre-set hash, the digest is
computed synchronously and a hash child attached exactly when the file size
is strictly below 10000000 bytes; with a pre-set hash the computation is
skipped and no hash child is attached on the send path. -/
theorem hash_threshold (fp : FileProp) (us : Option Bool) (cl : Bool)
    (hsend : fp.type_ ≠ "r") :
    (strTruthy fp.hash_ = false →
      (((fill_content fp us cl).hashComputed = true) ↔ fp.size < 10000000) ∧
      ((FileChild.hashTag ∈ (fill_content fp us cl).fileChildren) ↔
        fp.size < 10000000)) ∧
    (strTruthy fp.hash_ = true →
      (fill_content fp us cl).hashComputed = false ∧
      FileChild.hashTag ∉ (fill_content fp us cl).fileChildren) := by
  unfold fill_content computeHashResult
  constructor
  · intro hnone
    by_cases hsize : fp.size < 10000000
    · simp [hsend, hnone, hsize]
    · simp [hsend, hnone, hsize]
  · intro hsome
    simp [hsend, hsome]

/-- A small send-direction file without a hash. -/
def fp8 : FileProp :=
  { name := some "f", file_name := some "/home/u/f", date := none,
    size := 8000000, hash_ := none, algo := none, desc := none, type_ := "s" }

/-- The same file at 12000000 bytes. -/
def fp12 : FileProp :=
  { fp8 with size := 12000000 }

/-- Witness for C6: size 8000000 computes and attaches a hash; size
12000000 does not. -/
theorem hash_threshold_witness :
    (fill_content fp8 none false).hashComputed = true ∧
    (fill_content fp12 none false).hashComputed = false := by
  constructor
  · exact ((hash_threshold fp8 none false (by decide)).1 rfl).1.mpr (by norm_num [fp8])
  · have h := ((hash_threshold fp12 none false (by decide)).1 rfl).1
    cases hb : (fill_content fp12 none false).hashComputed
    · rfl
    · exact absurd (h.mp hb) (by norm_num [fp12, fp8])

/-- C7: accepting hash-mismatch recovery removes the local file, creates
exactly one brand-new record carrying the fresh session id and copying the
original file path, name, description, size, date and hash, forces the
direction to receive with a zero resume offset, and re-requests the full
file from the sender. -/
theorem hash_error_recovery (old : FTRecord) (account freshSid tsid : String) :
    (show_hash_error_on_yes old account freshSid tsid).removedFile = old.file_name ∧
    (show_hash_error_on_yes old account freshSid tsid).requested = true ∧
    ∃ nr, (show_hash_error_on_yes old account freshSid tsid).created = [nr] ∧
      nr.sid = freshSid ∧ nr.account = account ∧ nr.file_name = old.file_name ∧
      nr.name = old.name ∧ nr.desc = old.desc ∧ nr.size = old.size ∧
      nr.date = old.date ∧ nr.hash_ = old.hash_ ∧ nr.type_ = "r" ∧
      nr.offset = 0 ∧ nr.transport_sid = some tsid :=
  ⟨rfl, rfl, _, rfl, rfl, rfl, rfl, rfl, rfl, rfl, rfl, rfl, rfl, rfl, rfl⟩

/-- C3: the pause branch discards all retained throughput samples; after
resume, the first progress update retains exactly the one post-resume
sample, the resulting estimate does not depend on any pre-pause sample
data, and it equals the estimate computed from the single post-resume
sample alone (the degenerate single-sample case). -/
theorem pause_clears_samples (fp : TransferProp) (now tr : ℚ)
    (h : fp.elapsed_time > 0) :
    (pause_branch fp).transfered_size = [] ∧
    (set_progress_estimate (restore_branch (pause_branch fp) now) tr).2.transfered_size =
      [(now, if fp.offset ≠ 0 then tr - fp.offset else tr)] ∧
    (∀ oldSamples : List (ℚ × ℚ),
      (set_progress_estimate (restore_branch (pause_branch
        { fp with transfered_size := oldSamples }) now) tr).1 =
      (set_progress_estimate (restore_branch (pause_branch fp) now) tr).1) ∧
    (set_progress_estimate (restore_branch (pause_branch fp) now) tr).1 =
      get_eta_and_speed
        (if fp.offset ≠ 0 then fp.size - fp.offset else fp.size)
        (if fp.offset ≠ 0 then tr - fp.offset else tr)
        { fp with
          paused := false,
          last_time := now,
          transfered_size := [(now, if fp.offset ≠ 0 then tr - fp.offset else tr)] } := by
  refine ⟨rfl, ?_, ?_, ?_⟩
  · simp [set_progress_estimate, restore_branch, pause_branch, h]
  · intro oldSamples
    simp [set_progress_estimate, restore_branch, pause_branch, h]
  · simp [set_progress_estimate, restore_branch, pause_branch, h]

/-- An active transfer with two retained pre-pause samples. -/
def fpActive : TransferProp :=
  { size := 1000, transfered_size := [(1, 100), (2, 200)], elapsed_time := 3,
    last_time := 2, offset := 0, paused := false, stalled := false,
    connected := true, type_ := "r" }

/-- Witness for C3 at a concrete active transfer. -/
theorem pause_clears_samples_witness :
    (pause_branch fpActive).transfered_size = [] :=
  (pause_clears_samples fpActive 5 300 (by norm_num [fpActive])).1

/-- A transfer record whose sample list is empty while bytes have been
moving and the clock is running. -/
def fpNoSamples : TransferProp :=
  { size := 1000, transfered_size := [], elapsed_time := 2, last_time := 2,
    offset := 0, paused := false, stalled := false, connected := true,
    type_ := "r" }

/-- Counterexample to C4 as stated: with zero retained samples (which is
fewer than 2), 100 bytes transferred and 2 seconds elapsed, the claimed
formula transferred divided by elapsed time gives speed 50, but the code
returns (eta, speed) = (0, 0) without consulting transferred or elapsed
time at all. -/
theorem eta_speed_zero_samples_cex :
    get_eta_and_speed 1000 100 fpNoSamples = (0, 0) ∧
    (100 : ℚ) / fpNoSamples.elapsed_time = 50 ∧ (50 : ℚ) ≠ 0 := by
  refine ⟨by simp [get_eta_and_speed, fpNoSamples], ?_, by norm_num⟩
  norm_num [fpNoSamples]

/-- The sample window of the worked example of the spec. -/
def fpWindow3 : TransferProp :=
  { size := 1000, transfered_size := [(0, 0), (1, 100), (2, 300)],
    elapsed_time := 2, last_time := 2, offset := 0, paused := false,
    stalled := false, connected := true, type_ := "r" }

theorem getLastD_concat_pair (l : List (ℚ × ℚ)) (a d : ℚ × ℚ) :
    (l ++ [a]).getLastD d = a := by
  rw [List.getLastD_eq_getLast?, List.getLast?_concat]
  rfl

/-- C4 amended: with zero retained samples the estimate is (0, 0); with
exactly one sample the speed is the Python rounding of transferred divided
by elapsed time; with two or more samples the speed is the rounding of the
byte span divided by the time span of the whole retained window, with (0, 0)
returned when the time span is zero; a rounded speed of zero yields (0, 0)
and otherwise eta is the remaining size divided by the speed; the retained
window never exceeds 6 samples; and the worked sample window
(0,0),(1,100),(2,300) yields speed 150. -/
theorem eta_speed_spec (full tr : ℚ) (fp : TransferProp) :
    (fp.transfered_size = [] → get_eta_and_speed full tr fp = (0, 0)) ∧
    (∀ s : ℚ × ℚ, fp.transfered_size = [s] →
      get_eta_and_speed full tr fp =
        (if ((pyRound (tr / fp.elapsed_time) : ℤ) : ℚ) = 0 then (0, 0)
         else ((full - tr) / ((pyRound (tr / fp.elapsed_time) : ℤ) : ℚ),
               ((pyRound (tr / fp.elapsed_time) : ℤ) : ℚ)))) ∧
    (∀ hd mid lst, fp.transfered_size = hd :: (mid ++ [lst]) →
      get_eta_and_speed full tr fp =
        (if lst.1 - hd.1 = 0 then (0, 0)
         else if ((pyRound ((lst.2 - hd.2) / (lst.1 - hd.1)) : ℤ) : ℚ) = 0 then (0, 0)
         else ((full - tr) / ((pyRound ((lst.2 - hd.2) / (lst.1 - hd.1)) : ℤ) : ℚ),
               ((pyRound ((lst.2 - hd.2) / (lst.1 - hd.1)) : ℤ) : ℚ)))) ∧
    (∀ trArg, fp.transfered_size.length ≤ 6 →
      (set_progress_estimate fp trArg).2.transfered_size.length ≤ 6) ∧
    (get_eta_and_speed 1000 300 fpWindow3).2 = 150 := by
  refine ⟨?_, ?_, ?_, ?_, ?_⟩
  · intro hempty
    simp [get_eta_and_speed, hempty]
  · intro s hone
    simp [get_eta_and_speed, hone]
  · intro hd mid lst hmany
    have hlast : (hd :: (mid ++ [lst])).getLastD (0, 0) = lst := by
      have hcons : hd :: (mid ++ [lst]) = (hd :: mid) ++ [lst] := by simp
      rw [hcons, getLastD_concat_pair]
    have hlen1 : ¬((hd :: (mid ++ [lst])).length = 1) := by simp
    have hnil : ¬(hd :: (mid ++ [lst]) = ([] : List (ℚ × ℚ))) := by simp
    simp only [get_eta_and_speed, hmany, List.headD_cons]
    rw [if_neg hnil, if_neg hlen1, hlast]
    by_cases htim : lst.1 - hd.1 = 0
    · simp [htim]
    · by_cases hspd : ((pyRound ((lst.2 - hd.2) / (lst.1 - hd.1)) : ℤ) : ℚ) = 0
      · simp [htim, hspd]
      · simp [htim, hspd]
  · intro trArg hlen
    simp only [set_progress_estimate]
    split_ifs
    all_goals simp_all [List.length_tail]
    all_goals omega
  · simp [get_eta_and_speed, fpWindow3]
    norm_num [pyRound]

/-- Witness for C4 amended at an empty sample list. -/
theorem eta_speed_spec_witness :
    get_eta_and_speed 500 100 fpNoSamples = (0, 0) :=
  (eta_speed_spec 500 100 fpNoSamples).1 rfl

end Gajim
